import Mathlib

/-!
Shallow embedding of the `whatsapp-analyzer` repository
(`src/whatsapp_analyzer/parser.py`, `models.py`, `analysis.py`) and proofs
about the claims of its specification.

Conventions of the embedding:
* Python `datetime` values are modelled by the `Timestamp` structure (the
  program only ever produces minute-precision timestamps, seconds are 0).
* Python floats are modelled by `ℚ`; `round(x, k)` is modelled by exact
  rational rounding to `k` decimals (the claims never exercise the
  float-specific tie-to-even or representation-error cases).
* Python exceptions that cross the parser boundary are modelled by
  `Except String`.
* Unicode-dependent library calls (`str.lower`, `unicodedata.normalize`,
  `unicodedata.combining`, `re` word characters) are modelled by explicit
  character tables covering ASCII plus the characters exercised by the
  program and the proofs (accented Latin letters and a representative
  non-Latin letter); outside the table the functions act as identity,
  matching Python on the modelled subset.
-/

set_option maxRecDepth 8000

namespace WA

/-- The apostrophe character (written via its code point). -/
def apos : Char := Char.ofNat 39

/-- The byte-order-marker character U+FEFF. -/
def bom : Char := Char.ofNat 0xFEFF

/-- Numeric value of a list of decimal digit characters. -/
def digitsToNat (l : List Char) : Nat :=
  l.foldl (fun a c => a * 10 + (c.toNat - 48)) 0

def natOfStr (s : String) : Nat := digitsToNat s.toList

/-- Drop trailing characters satisfying `p` (used for the `rstrip` models). -/
def dropTrailing (p : Char → Bool) (l : List Char) : List Char :=
  (l.reverse.dropWhile p).reverse

/-- Characters stripped by Python `str.strip()` / `str.rstrip()` with no
argument (`str.isspace`): ASCII whitespace, the C1 separators and the
Unicode space characters. -/
def isPySpace (c : Char) : Bool :=
  c.toNat ∈ [0x09, 0x0A, 0x0B, 0x0C, 0x0D, 0x1C, 0x1D, 0x1E, 0x1F, 0x20,
    0x85, 0xA0, 0x1680, 0x2000, 0x2001, 0x2002, 0x2003, 0x2004, 0x2005,
    0x2006, 0x2007, 0x2008, 0x2009, 0x200A, 0x2028, 0x2029, 0x202F,
    0x205F, 0x3000]

/-- Model of Python `str.strip()` (no argument). -/
def pyStrip (s : String) : String :=
  String.mk (dropTrailing isPySpace (s.toList.dropWhile isPySpace))

/-- Model of Python `str.rstrip()` (no argument). -/
def pyRstrip (s : String) : String :=
  String.mk (dropTrailing isPySpace s.toList)

/-- Model of `line.rstrip("﻿")` from `parse_exported_text`: it removes
*trailing* U+FEFF characters only. -/
def rstripBom (s : String) : String :=
  String.mk (dropTrailing (· = bom) s.toList)

/-- Line-boundary characters of Python `str.splitlines`. -/
def isLineBoundary (c : Char) : Bool :=
  c.toNat ∈ [0x0A, 0x0B, 0x0C, 0x0D, 0x1C, 0x1D, 0x1E, 0x85, 0x2028, 0x2029]

/-- Model of Python `str.splitlines()` (with `\r\n` treated as one
boundary). -/
def splitlinesAux : List Char → List Char → List String
  | [], acc => if acc = [] then [] else [String.mk acc.reverse]
  | c :: rest, acc =>
    if c.toNat = 0x0D then
      match rest with
      | d :: rest2 =>
        if d.toNat = 0x0A then String.mk acc.reverse :: splitlinesAux rest2 []
        else String.mk acc.reverse :: splitlinesAux (d :: rest2) []
      | [] => [String.mk acc.reverse]
    else if isLineBoundary c then String.mk acc.reverse :: splitlinesAux rest []
    else splitlinesAux rest (c :: acc)

def pySplitlines (s : String) : List String := splitlinesAux s.toList []

/-! ## Timestamps and the Gregorian calendar (model of `datetime`) -/

structure Timestamp where
  year : Nat
  month : Nat
  day : Nat
  hour : Nat
  minute : Nat
deriving DecidableEq, Repr

def isLeapYear (y : Nat) : Bool :=
  (y % 4 = 0 && y % 100 ≠ 0) || y % 400 = 0

def daysInMonth (y m : Nat) : Nat :=
  if m = 2 then (if isLeapYear y then 29 else 28)
  else if m ∈ [4, 6, 9, 11] then 30
  else 31

/-- Days in the proleptic Gregorian calendar before the first day of month
`m` of year `y`. -/
def daysBeforeMonth (y m : Nat) : Nat :=
  (List.range m).foldl (fun a k => if 1 ≤ k then a + daysInMonth y k else a) 0

/-- Day number of a date in the proleptic Gregorian calendar (as used by
Python `datetime`), counted from year 1. -/
def dayNumber (t : Timestamp) : Nat :=
  365 * (t.year - 1) + (t.year - 1) / 4 - (t.year - 1) / 100 + (t.year - 1) / 400
    + daysBeforeMonth t.year t.month + (t.day - 1)

/-- Total minutes of a timestamp; `datetime` subtraction in minutes is the
difference of this quantity (all program timestamps have 0 seconds). -/
def tsMinutes (t : Timestamp) : Int :=
  1440 * (dayNumber t : Int) + 60 * (t.hour : Int) + (t.minute : Int)

/-- The calendar-day key of a timestamp; two messages land in the same
`messages_per_day` bucket (key `strftime("%Y-%m-%d")`) iff their keys are
equal. -/
def dayKey (t : Timestamp) : Nat × Nat × Nat := (t.year, t.month, t.day)

/-! ## The parser (`parser.py`) -/

/-- Capture groups of a successful `LINE_PATTERN` match
`^(\d{1,2}/\d{1,2}/\d{2,4})[ ,]+(\d{2}:\d{2}) - (.+)$`, with the date and
time groups broken into their digit runs. -/
structure Header where
  day : String
  month : String
  year : String
  hour : String
  minute : String
  rest : String
deriving DecidableEq, Repr

def Header.dateStr (h : Header) : String :=
  h.day ++ "/" ++ h.month ++ "/" ++ h.year

def Header.timeStr (h : Header) : String :=
  h.hour ++ ":" ++ h.minute

def isSepChar (c : Char) : Bool := c = ' ' || c = ','

/-- Model of `LINE_PATTERN.match(line)`.  The regex is deterministic on the
character level (each `\d{a,b}` group is a maximal digit run whose length
must lie in `[a,b]`, each literal must follow exactly); lines coming from
`splitlines` contain no newline, so `.+` is simply "nonempty remainder". -/
def headerMatch (s : String) : Option Header :=
  let l := s.toList
  let d := l.takeWhile Char.isDigit
  let r1 := l.dropWhile Char.isDigit
  if d.length < 1 ∨ 2 < d.length then none else
  match r1 with
  | c1 :: r2 =>
    if c1 ≠ '/' then none else
    let mo := r2.takeWhile Char.isDigit
    let r3 := r2.dropWhile Char.isDigit
    if mo.length < 1 ∨ 2 < mo.length then none else
    match r3 with
    | c2 :: r4 =>
      if c2 ≠ '/' then none else
      let y := r4.takeWhile Char.isDigit
      let r5 := r4.dropWhile Char.isDigit
      if y.length < 2 ∨ 4 < y.length then none else
      let sep := r5.takeWhile isSepChar
      let r6 := r5.dropWhile isSepChar
      if sep.length = 0 then none else
      let hh := r6.takeWhile Char.isDigit
      let r7 := r6.dropWhile Char.isDigit
      if hh.length ≠ 2 then none else
      match r7 with
      | c3 :: r8 =>
        if c3 ≠ ':' then none else
        let mi := r8.takeWhile Char.isDigit
        let r9 := r8.dropWhile Char.isDigit
        if mi.length ≠ 2 then none else
        match r9 with
        | ' ' :: '-' :: ' ' :: restL =>
          if restL = [] then none else
          some ⟨String.mk d, String.mk mo, String.mk y,
                String.mk hh, String.mk mi, String.mk restL⟩
        | _ => none
      | _ => none
    | _ => none
  | _ => none

/-- Model of `SENDER_PATTERN.match(rest)` for
`^([^:]+): (.*)$`: the sender part is everything before the first colon
(nonempty), which must be followed by a space. -/
def senderMatch (s : String) : Option (String × String) :=
  let l := s.toList
  let pre := l.takeWhile (· ≠ ':')
  let post := l.dropWhile (· ≠ ':')
  if pre = [] then none else
  match post with
  | c :: sp :: msg => if c = ':' ∧ sp = ' ' then some (String.mk pre, String.mk msg) else none
  | _ => none

/-- Model of `datetime.strptime(text, fmt)` for the two formats of
`DATE_FORMATS`, applied to the captured digit groups of a header line.
`twoDigitYear = false` is `"%d/%m/%Y %H:%M"`, `twoDigitYear = true` is
`"%d/%m/%y %H:%M"`.  `%Y` requires exactly four digits (`%y` exactly two),
`%d`/`%m`/`%H`/`%M` enforce their numeric ranges, and the `datetime`
constructor additionally validates the day against the month length and
`MINYEAR = 1` (year 0000 is rejected). -/
def strptimeFormat (twoDigitYear : Bool) (h : Header) : Option Timestamp :=
  let d := natOfStr h.day
  let mo := natOfStr h.month
  let rawY := natOfStr h.year
  let y := if twoDigitYear then (if rawY ≤ 68 then 2000 + rawY else 1900 + rawY) else rawY
  let hh := natOfStr h.hour
  let mi := natOfStr h.minute
  let yearDigitsOk := if twoDigitYear then h.year.length = 2 else h.year.length = 4
  if yearDigitsOk ∧ 1 ≤ mo ∧ mo ≤ 12 ∧ 1 ≤ d ∧ d ≤ daysInMonth y mo ∧
      1 ≤ y ∧ hh ≤ 23 ∧ mi ≤ 59 then
    some ⟨y, mo, d, hh, mi⟩
  else none

/-- The message of the `ValueError` raised by `_parse_timestamp`. -/
def tsErrorMsg (h : Header) : String :=
  "Nao foi possivel interpretar a data: " ++ h.dateStr ++ " " ++ h.timeStr

/-- Model of `_parse_timestamp(date_str, time_str)` (applied to the capture
groups it always receives): try the 4-digit-year format, then the
2-digit-year format, else raise. -/
def parse_timestamp (h : Header) : Except String Timestamp :=
  match strptimeFormat false h with
  | some t => Except.ok t
  | none =>
    match strptimeFormat true h with
    | some t => Except.ok t
    | none => Except.error (tsErrorMsg h)

/-! ## Data model (`models.py`) -/

structure Message where
  timestamp : Timestamp
  sender : Option String
  content : String
  is_system : Bool
deriving DecidableEq, Repr

/-- `Conversation` (the unused free-form `metadata` dict is omitted). -/
structure Conversation where
  participants : List String
  messages : List Message
deriving DecidableEq, Repr

/-! ## Parser state machine (`parse_exported_text`) -/

/-- The mutable locals of `parse_exported_text` at the top of each loop
iteration. -/
structure PState where
  messages : List Message
  participants : List String
  curTimestamp : Option Timestamp
  curSender : Option String
  curIsSystem : Bool
  curContentLines : List String
deriving DecidableEq, Repr

def initState : PState := ⟨[], [], none, none, false, []⟩

/-- 1 when a message is pending (`current_timestamp is not None`), else 0;
used for the flush-counting invariant. -/
def pendingFlag (st : PState) : Nat := if st.curTimestamp.isSome then 1 else 0

/-- Model of the inner `flush_current`. -/
def flush_current (st : PState) : PState :=
  match st.curTimestamp with
  | none => st
  | some ts =>
    let content := pyStrip (String.intercalate "\n" (st.curContentLines.map pyRstrip))
    let msg : Message :=
      ⟨ts, if st.curIsSystem then none else st.curSender, content, st.curIsSystem⟩
    ⟨st.messages ++ [msg], st.participants, none, none, false, []⟩

/-- Python `set.add` modelled on a duplicate-free list. -/
def addParticipant (l : List String) (s : String) : List String :=
  if s ∈ l then l else l ++ [s]

/-- One iteration of the parser loop over a raw physical line. -/
def processLine (st : PState) (rawLine : String) : Except String PState :=
  let line := rstripBom rawLine
  if line = "" then
    Except.ok (if st.curContentLines = [] then st
      else { st with curContentLines := st.curContentLines ++ [""] })
  else
    match headerMatch line with
    | some h =>
      let st := flush_current st
      match parse_timestamp h with
      | Except.error e => Except.error e
      | Except.ok ts =>
        let rest := pyStrip h.rest
        match senderMatch rest with
        | some (senderRaw, msgRaw) =>
          let sender := pyStrip senderRaw
          let content := pyStrip msgRaw
          Except.ok ⟨st.messages, addParticipant st.participants sender,
            some ts, some sender, false, [content]⟩
        | none =>
          Except.ok ⟨st.messages, st.participants, some ts, none, true, [rest]⟩
    | none =>
      match st.curTimestamp with
      | none => Except.ok st
      | some _ => Except.ok { st with curContentLines := st.curContentLines ++ [line] }

def runLines : PState → List String → Except String PState
  | st, [] => Except.ok st
  | st, l :: ls =>
    match processLine st l with
    | Except.error e => Except.error e
    | Except.ok st2 => runLines st2 ls

/-- Model of `parse_exported_text`. -/
def parse_exported_text (raw : String) : Except String Conversation :=
  match runLines initState (pySplitlines raw) with
  | Except.error e => Except.error e
  | Except.ok st =>
    let st2 := flush_current st
    Except.ok ⟨st2.participants.insertionSort (· ≤ ·), st2.messages⟩

/-! ## Text normalization and tokenization (`analysis.py`) -/

/-- Model of Python `str.lower` per character: ASCII and Latin-1 letters
(identity elsewhere; the modelled subset covers every character the proofs
use). -/
def pyLowerChar (c : Char) : Char :=
  let n := c.toNat
  if 65 ≤ n ∧ n ≤ 90 then Char.ofNat (n + 32)
  else if 0xC0 ≤ n ∧ n ≤ 0xDE ∧ n ≠ 0xD7 then Char.ofNat (n + 32)
  else c

def pyLower (s : String) : String := String.mk (s.toList.map pyLowerChar)

/-- NFKD decompositions for the accented Latin letters (lower and upper
case); all other characters decompose to themselves in the modelled
subset. -/
def nfkdPairs : List (Nat × List Nat) :=
  [(0xE0, [0x61, 0x300]), (0xE1, [0x61, 0x301]), (0xE2, [0x61, 0x302]),
   (0xE3, [0x61, 0x303]), (0xE4, [0x61, 0x308]),
   (0xE8, [0x65, 0x300]), (0xE9, [0x65, 0x301]), (0xEA, [0x65, 0x302]),
   (0xEB, [0x65, 0x308]),
   (0xEC, [0x69, 0x300]), (0xED, [0x69, 0x301]), (0xEE, [0x69, 0x302]),
   (0xEF, [0x69, 0x308]),
   (0xF2, [0x6F, 0x300]), (0xF3, [0x6F, 0x301]), (0xF4, [0x6F, 0x302]),
   (0xF5, [0x6F, 0x303]), (0xF6, [0x6F, 0x308]),
   (0xF9, [0x75, 0x300]), (0xFA, [0x75, 0x301]), (0xFB, [0x75, 0x302]),
   (0xFC, [0x75, 0x308]),
   (0xE7, [0x63, 0x327]), (0xF1, [0x6E, 0x303]),
   (0xC0, [0x41, 0x300]), (0xC1, [0x41, 0x301]), (0xC2, [0x41, 0x302]),
   (0xC3, [0x41, 0x303]), (0xC4, [0x41, 0x308]),
   (0xC8, [0x45, 0x300]), (0xC9, [0x45, 0x301]), (0xCA, [0x45, 0x302]),
   (0xCB, [0x45, 0x308]),
   (0xCC, [0x49, 0x300]), (0xCD, [0x49, 0x301]), (0xCE, [0x49, 0x302]),
   (0xCF, [0x49, 0x308]),
   (0xD2, [0x4F, 0x300]), (0xD3, [0x4F, 0x301]), (0xD4, [0x4F, 0x302]),
   (0xD5, [0x4F, 0x303]), (0xD6, [0x4F, 0x308]),
   (0xD9, [0x55, 0x300]), (0xDA, [0x55, 0x301]), (0xDB, [0x55, 0x302]),
   (0xDC, [0x55, 0x308]),
   (0xC7, [0x43, 0x327]), (0xD1, [0x4E, 0x303])]

/-- Model of `unicodedata.normalize("NFKD", ·)` per character. -/
def nfkdChar (c : Char) : List Char :=
  match nfkdPairs.find? (fun p => p.1 = c.toNat) with
  | some p => p.2.map Char.ofNat
  | none => [c]

def nfkdStr (l : List Char) : List Char := l.flatMap nfkdChar

/-- Model of `unicodedata.combining(ch) != 0`: the combining diacritical
marks block. -/
def isCombining (c : Char) : Bool := 0x300 ≤ c.toNat ∧ c.toNat ≤ 0x36F

/-- Model of `re` word characters (`\w` with `re.UNICODE`) on the modelled
subset: ASCII alphanumerics, underscore, the Latin-1 letters and the Greek
letter mu (a representative non-Latin word character). -/
def isWordChar (c : Char) : Bool :=
  let n := c.toNat
  (48 ≤ n ∧ n ≤ 57) || (65 ≤ n ∧ n ≤ 90) || (97 ≤ n ∧ n ≤ 122) || n = 95 ||
    (0xC0 ≤ n ∧ n ≤ 0xFF ∧ n ≠ 0xD7 ∧ n ≠ 0xF7) || n = 0x3BC

def isTokenChar (c : Char) : Bool := isWordChar c || c = apos

/-- Maximal runs of token characters (word characters and apostrophes) of a
character list. -/
def tokenRunsAux : List Char → List Char → List (List Char)
  | [], acc => if acc = [] then [] else [acc.reverse]
  | c :: rest, acc =>
    if isTokenChar c then tokenRunsAux rest (c :: acc)
    else if acc = [] then tokenRunsAux rest []
    else acc.reverse :: tokenRunsAux rest []

/-- Strip leading and trailing apostrophes of a character list. -/
def stripApos (l : List Char) : List Char :=
  dropTrailing (· = apos) (l.dropWhile (· = apos))

/-- Model of `WORD_PATTERN.finditer` for `\b[\w']+\b`: each maximal run of
word characters / apostrophes that contains at least one word character
yields one match, trimmed of the leading and trailing apostrophes that the
`\b` anchors exclude. -/
def wordMatches (s : String) : List String :=
  (tokenRunsAux s.toList []).filterMap fun run =>
    if run.any isWordChar then some (String.mk (stripApos run)) else none

/-- Model of `_normalize_word`: NFKD-decompose, then
`encode("ASCII", "ignore")` (which keeps exactly the characters below
U+0080, dropping combining marks and every other non-ASCII character), then
`strip("'")`. -/
def normalize_word (w : String) : String :=
  String.mk (stripApos ((nfkdStr w.toList).filter (fun c => c.toNat ≤ 127)))

/-- Model of `_normalize_text`: lower-case, NFKD-decompose, drop combining
marks (all other characters are kept). -/
def normalize_text (t : String) : String :=
  String.mk ((nfkdStr (t.toList.map pyLowerChar)).filter (fun c => ¬ isCombining c))

def IGNORED_NORMALIZED_MESSAGES : List String :=
  ["arquivo de midia oculta", "<arquivo de midia oculta>",
   "imagem omitida", "<imagem omitida>",
   "audio omitido", "<audio omitido>"]

/-- Model of `_should_ignore_for_word_counts`. -/
def should_ignore_for_word_counts (text : String) : Bool :=
  pyStrip (normalize_text text) ∈ IGNORED_NORMALIZED_MESSAGES

def STOPWORDS : List String :=
  ["a", "ao", "aos", "arquivo", "as", "ate", "audio", "com", "da", "das",
   "de", "do", "dos", "e", "em", "entao", "essa", "esse", "estao", "esta",
   "ficar", "foi", "imagem", "isso", "ja", "la", "mas", "midia", "na",
   "nas", "nao", "nos", "num", "numa", "oculta", "oculto", "omitida",
   "omitido", "o", "os", "para", "por", "pra", "pro", "que", "quem", "se",
   "sem", "sim", "sou", "sua", "suas", "ta", "tava", "tem", "tudo", "um",
   "uma", "vou"]

def POSITIVE_WORDS : List String :=
  ["amor", "amo", "amada", "amado", "amiga", "amigo", "beijo", "carinho",
   "caro", "carinhosa", "carinhoso", "feliz", "fofa", "fofo", "gostei",
   "grata", "grato", "linda", "lindo", "obrigada", "obrigado", "otimo",
   "perfeito", "querida", "querido", "saudade", "sucesso"]

def NEGATIVE_WORDS : List String :=
  ["briga", "cansada", "cansado", "chateada", "chateado", "erro",
   "irritada", "irritado", "magoada", "magoado", "medo", "problema",
   "raiva", "sozinha", "sozinho", "stress", "triste"]

/-- Model of `EMOJI_PATTERN`: the fixed code-point ranges. -/
def isEmojiChar (c : Char) : Bool :=
  let n := c.toNat
  (0x1F300 ≤ n ∧ n ≤ 0x1F5FF) || (0x1F600 ≤ n ∧ n ≤ 0x1F64F) ||
  (0x1F680 ≤ n ∧ n ≤ 0x1F6FF) || (0x1F700 ≤ n ∧ n ≤ 0x1F77F) ||
  (0x1F780 ≤ n ∧ n ≤ 0x1F7FF) || (0x1F800 ≤ n ∧ n ≤ 0x1F8FF) ||
  (0x1F900 ≤ n ∧ n ≤ 0x1F9FF) || (0x1FA00 ≤ n ∧ n ≤ 0x1FA6F) ||
  (0x1FA70 ≤ n ∧ n ≤ 0x1FAFF) || (0x2700 ≤ n ∧ n ≤ 0x27BF)

/-- `EMOJI_PATTERN.findall(content)`: the emoji characters of a string, in
order, each as a one-character string. -/
def emojiMatches (s : String) : List String :=
  (s.toList.filter isEmojiChar).map fun c => String.mk [c]

/-- The `POSITIVE_EMOJIS` set (each entry written via its code points; the
two-code-point entry `heart + variation selector` is kept even though a
one-character regex match can never equal it). -/
def POSITIVE_EMOJIS : List String :=
  [String.mk [Char.ofNat 0x1F60D], String.mk [Char.ofNat 0x2764],
   String.mk [Char.ofNat 0x2764, Char.ofNat 0xFE0F],
   String.mk [Char.ofNat 0x1F970], String.mk [Char.ofNat 0x1F618],
   String.mk [Char.ofNat 0x1F60A], String.mk [Char.ofNat 0x1F601],
   String.mk [Char.ofNat 0x1F495], String.mk [Char.ofNat 0x1F49E],
   String.mk [Char.ofNat 0x1F496], String.mk [Char.ofNat 0x1F497],
   String.mk [Char.ofNat 0x1F493], String.mk [Char.ofNat 0x1F498],
   String.mk [Char.ofNat 0x263A], String.mk [Char.ofNat 0x1F604],
   String.mk [Char.ofNat 0x1F603], String.mk [Char.ofNat 0x1F606],
   String.mk [Char.ofNat 0x1F917]]

/-! ## Counters (`collections.Counter` with dict insertion order) -/

/-- A `Counter` is an association list in key-insertion order (a Python
dict preserves the position at which a key was first inserted; `+= 1`
updates in place, a new key is appended). -/
abbrev Counter := List (String × Nat)

def bump (c : Counter) (k : String) : Counter :=
  match c with
  | [] => [(k, 1)]
  | (k2, v) :: rest => if k2 = k then (k2, v + 1) :: rest else (k2, v) :: bump rest k

def lookupCount (c : Counter) (k : String) : Nat :=
  match c.find? (fun p => p.1 = k) with
  | some p => p.2
  | none => 0

/-- `Counter.most_common(n)`: stable sort by count, descending (Python
`heapq.nlargest` / `sorted(..., reverse=True)` keep equal-count entries in
iteration order, which is first-insertion order), then take `n`. -/
def most_common (n : Nat) (c : Counter) : Counter :=
  (c.insertionSort (fun p q => q.2 ≤ p.2)).take n

/-- Model of `_count_words` (the source binds `normalized = _normalize_word(...)`
to a local first; the binding is inlined here). -/
def count_words (messages : List Message) : Counter :=
  messages.foldl
    (fun acc m =>
      if should_ignore_for_word_counts m.content then acc
      else
        (wordMatches (pyLower m.content)).foldl
          (fun a t =>
            if normalize_word t = "" ∨ normalize_word t ∈ STOPWORDS then a
            else bump a (normalize_word t))
          acc)
    []

/-- Model of `_count_emojis`. -/
def count_emojis (messages : List Message) : Counter :=
  messages.foldl (fun acc m => (emojiMatches m.content).foldl bump acc) []

/-! ## Statistics (`compute_statistics` and helpers) -/

/-- Floor of a rational (`Int` division is Euclidean, hence floor division
for the positive denominator). -/
def floorQ (x : ℚ) : ℤ := x.num / (x.den : ℤ)

/-- Round to the nearest integer, halves up. -/
def roundQ (x : ℚ) : ℤ := floorQ (x + 1 / 2)

/-- Python `round(x, k)` modelled as exact rational rounding to `k`
decimals (the claims never hit the float tie-to-even cases). -/
def roundTo (k : Nat) (x : ℚ) : ℚ := (roundQ (x * 10 ^ k) : ℚ) / 10 ^ k

/-- Append a value to the entry of key `k` of an insertion-ordered
association list (`defaultdict(list)` access followed by `append`). -/
def appendAt (l : List (String × List α)) (k : String) (v : α) :
    List (String × List α) :=
  match l with
  | [] => [(k, [v])]
  | (k2, vs) :: rest =>
    if k2 = k then (k2, vs ++ [v]) :: rest else (k2, vs) :: appendAt rest k v

def lookupList (l : List (String × List α)) (k : String) : List α :=
  match l.find? (fun p => p.1 = k) with
  | some p => p.2
  | none => []

/-- The `per_participant` grouping of `compute_statistics`: messages with a
sender, grouped by sender in first-encounter order (`defaultdict(list)`),
each group in message order. -/
def per_participant (messages : List Message) : List (String × List Message) :=
  messages.foldl
    (fun gs m => match m.sender with
      | none => gs
      | some s => appendAt gs s m)
    []

structure SentimentEntry where
  positive : Nat
  negative : Nat
  sentiment_score : ℚ
deriving DecidableEq, Repr

/-- Positive/negative lexicon hits of one participant's messages
(the inner loops of `_compute_sentiment`; the `normalized` local is
inlined). -/
def sentimentCounts (personal : List Message) : Nat × Nat :=
  personal.foldl
    (fun pn m =>
      if should_ignore_for_word_counts m.content then pn
      else
        (wordMatches (pyLower m.content)).foldl
          (fun pn t =>
            if normalize_word t ∈ POSITIVE_WORDS then (pn.1 + 1, pn.2)
            else if normalize_word t ∈ NEGATIVE_WORDS then (pn.1, pn.2 + 1)
            else pn)
          pn)
    (0, 0)

/-- Model of `_compute_sentiment`. -/
def compute_sentiment (perPart : List (String × List Message)) :
    List (String × SentimentEntry) :=
  perPart.map fun g =>
    let (p, n) := sentimentCounts g.2
    let total := p + n
    let score : ℚ := if total = 0 then 0 else roundTo 3 (((p : ℚ) - (n : ℚ)) / (total : ℚ))
    (g.1, ⟨p, n, score⟩)

/-- Model of `_compute_response_times`: one pass with the previous
sender-bearing message as state; a nonnegative minute delta between
consecutive such messages with different senders is appended to the *new*
sender's list. -/
def responseTimesAux (prev : Option Message) (msgs : List Message)
    (acc : List (String × List ℚ)) : List (String × List ℚ) :=
  match msgs with
  | [] => acc
  | m :: rest =>
    match m.sender with
    | none => responseTimesAux prev rest acc
    | some s =>
      let acc2 :=
        match prev with
        | some p =>
          match p.sender with
          | some ps =>
            let delta : ℚ := ((tsMinutes m.timestamp - tsMinutes p.timestamp : Int) : ℚ)
            if ps ≠ s ∧ 0 ≤ delta then appendAt acc s delta else acc
          | none => acc
        | none => acc
      responseTimesAux (some m) rest acc2

def compute_response_times (messages : List Message) : List (String × List ℚ) :=
  responseTimesAux none messages []

/-- The per-key counts of `messages_per_day` (only the set of keys, i.e.
`active_days`, feeds the verified claims, but the accumulation is kept). -/
def messagesPerDay (messages : List Message) : List ((Nat × Nat × Nat) × Nat) :=
  messages.foldl
    (fun acc m =>
      match acc.find? (fun p => p.1 = dayKey m.timestamp) with
      | some _ => acc.map fun p =>
          if p.1 = dayKey m.timestamp then (p.1, p.2 + 1) else p
      | none => acc ++ [(dayKey m.timestamp, 1)])
    []

def sumQ (l : List ℚ) : ℚ := l.foldl (· + ·) 0

def maxQ (l : List ℚ) : ℚ :=
  match l with
  | [] => 0
  | x :: xs => xs.foldl max x

def minQ (l : List ℚ) : ℚ :=
  match l with
  | [] => 0
  | x :: xs => xs.foldl min x

/-- The five sub-scores of `_compute_relationship_score` (each in `[0,1]`),
followed by the weighted combination.  They are split out of the main
definition so the theorems can name them. -/
def balanceScore (participantShare : List (String × ℚ)) : ℚ :=
  if participantShare ≠ [] then
    max 0 (1 - ((maxQ (participantShare.map (·.2)) - minQ (participantShare.map (·.2))) / 100))
  else 1 / 2

def engagementScore (numParticipantMessages activeDays : Nat) : ℚ :=
  min (((numParticipantMessages : ℚ) / (max activeDays 1 : Nat)) / 40) 1

def totalEmojiCount (c : Counter) : Nat := (c.map (·.2)).sum

def positiveEmojiCount (c : Counter) : Nat :=
  ((c.filter (fun p => p.1 ∈ POSITIVE_EMOJIS)).map (·.2)).sum

def positiveEmojiFrac (c : Counter) : ℚ :=
  if totalEmojiCount c ≠ 0 then (positiveEmojiCount c : ℚ) / (totalEmojiCount c : ℚ) else 0

def positiveEmojiScore (c : Counter) : ℚ := min (positiveEmojiFrac c / (1 / 4)) 1

def responsivenessScore (overallAvgResp : Option ℚ) : ℚ :=
  match overallAvgResp with
  | none => 1 / 2
  | some r => if r ≤ 5 then 1 else if 60 ≤ r then 0 else max 0 (1 - (r - 5) / 55)

def sentimentComponent (overallSent : Option ℚ) : ℚ :=
  match overallSent with
  | none => 1 / 2
  | some v => (max (-1) (min v 1) + 1) / 2

/-- The weighted sum of `_compute_relationship_score` before scaling. -/
def weightedRelScore (b e pe r s : ℚ) : ℚ :=
  (b * (30 / 100) + e * (25 / 100) + pe * (20 / 100) + r * (15 / 100) + s * (10 / 100)) * 100

structure RelComponents where
  balance : ℚ
  engagement : ℚ
  positive_emoji : ℚ
  responsiveness : ℚ
  sentiment : ℚ
deriving DecidableEq, Repr

/-- The numeric `inputs` of the relationship-score report (the pass-through
per-participant maps are reported unchanged by the code and are not
duplicated here). -/
structure RelInputs where
  average_messages_per_active_day : ℚ
  positive_emoji_frac : ℚ
  average_response_time_minutes : Option ℚ
  overall_sentiment_score : Option ℚ
  total_emojis : Nat
deriving DecidableEq, Repr

/-- Result of `_compute_relationship_score`; `components`/`inputs` are
`none` exactly when the code returns them as empty dicts. -/
structure RelOutput where
  score : ℚ
  components : Option RelComponents
  inputs : Option RelInputs
deriving DecidableEq, Repr

/-- Model of `_compute_relationship_score` (the unused
`messages_per_participant` parameter and the pass-through report fields are
dropped). -/
def compute_relationship_score (participantShare : List (String × ℚ))
    (participantMessages : List Message) (emojiCounts : Counter)
    (activeDays : Nat) (overallAvgResp : Option ℚ) (overallSent : Option ℚ) :
    RelOutput :=
  if participantMessages = [] then ⟨0, none, none⟩
  else
    let b := balanceScore participantShare
    let e := engagementScore participantMessages.length activeDays
    let pe := positiveEmojiScore emojiCounts
    let r := responsivenessScore overallAvgResp
    let s := sentimentComponent overallSent
    { score := roundTo 1 (weightedRelScore b e pe r s)
      components := some
        ⟨roundTo 1 (b * 100), roundTo 1 (e * 100), roundTo 1 (pe * 100),
         roundTo 1 (r * 100), roundTo 1 (s * 100)⟩
      inputs := some
        ⟨roundTo 2 ((participantMessages.length : ℚ) / (max activeDays 1 : Nat)),
         roundTo 3 (positiveEmojiFrac emojiCounts), overallAvgResp, overallSent,
         totalEmojiCount emojiCounts⟩ }

/-- The fields of the `compute_statistics` report that carry the verified
claims (the purely presentational fields — temporal histograms, character
and word averages, first/last timestamps, duration — are independent of
every claim and are omitted). -/
structure Statistics where
  total_messages : Nat
  system_messages : Nat
  participant_messages : Nat
  messages_per_participant : List (String × Nat)
  participant_share : List (String × ℚ)
  top_words_per_participant : List (String × Counter)
  emoji_counts : Counter
  active_days_with_messages : Nat
  average_response_time_minutes : List (String × Option ℚ)
  overall_average_response_time_minutes : Option ℚ
  sentiment_per_participant : List (String × SentimentEntry)
  overall_sentiment_score : Option ℚ
  relationship_score : RelOutput
deriving DecidableEq, Repr

/-- Model of `compute_statistics`. -/
def compute_statistics (conversation : Conversation) : Statistics :=
  let messages := conversation.messages.filter (fun m => m.content ≠ "")
  let total_messages := messages.length
  let participantMessages := messages.filter (fun m => ¬ m.is_system)
  let perPart := per_participant participantMessages
  let wordsPerParticipant := perPart.map fun g => (g.1, count_words g.2)
  let topWords := wordsPerParticipant.map fun g => (g.1, most_common 10 g.2)
  let emojiCounts := count_emojis participantMessages
  let messagesPerParticipant := perPart.map fun g => (g.1, g.2.length)
  let participantShare := messagesPerParticipant.map fun g =>
    (g.1, if total_messages ≠ 0 then ((g.2 : ℚ) / (total_messages : ℚ)) * 100 else 0)
  let activeDays := (messagesPerDay participantMessages).length
  let responseTimes := compute_response_times participantMessages
  let averageResponseMinutes : List (String × Option ℚ) := responseTimes.map fun g =>
    (g.1, if g.2 ≠ [] then some (roundTo 2 (sumQ g.2 / (g.2.length : ℚ))) else none)
  let validResponseAverages := averageResponseMinutes.filterMap (·.2)
  let overallAverageResponse : Option ℚ :=
    if validResponseAverages ≠ [] then
      some (roundTo 2 (sumQ validResponseAverages / (validResponseAverages.length : ℚ)))
    else none
  let sentimentPerParticipant := compute_sentiment perPart
  -- The source filters with `if data`, but `data` is a three-key dict and
  -- is therefore always truthy: every per-participant entry contributes.
  let sentimentScores := sentimentPerParticipant.map (·.2.sentiment_score)
  let overallSentiment : Option ℚ :=
    if sentimentScores ≠ [] then
      some (roundTo 3 (sumQ sentimentScores / (sentimentScores.length : ℚ)))
    else none
  let relationshipScore := compute_relationship_score participantShare
    participantMessages emojiCounts activeDays overallAverageResponse overallSentiment
  { total_messages := total_messages
    system_messages := (messages.filter (fun m => m.is_system)).length
    participant_messages := participantMessages.length
    messages_per_participant := messagesPerParticipant
    participant_share := participantShare
    top_words_per_participant := topWords
    emoji_counts := most_common 15 emojiCounts
    active_days_with_messages := activeDays
    average_response_time_minutes := averageResponseMinutes
    overall_average_response_time_minutes := overallAverageResponse
    sentiment_per_participant := sentimentPerParticipant
    overall_sentiment_score := overallSentiment
    relationship_score := relationshipScore }

/-! ## Specification-side definitions

These definitions follow the *wording of the specification* (not the code);
they exist to be compared against the embedded code above. -/

def exceptIsOk {α : Type} (e : Except String α) : Bool :=
  match e with
  | Except.ok _ => true
  | Except.error _ => false

instance {ε α : Type} [DecidableEq ε] [DecidableEq α] : DecidableEq (Except ε α) := fun a b =>
  match a, b with
  | Except.ok x, Except.ok y =>
    if h : x = y then isTrue (congrArg Except.ok h)
    else isFalse (fun hh => h (Except.ok.inj hh))
  | Except.ok _, Except.error _ => isFalse (fun hh => Except.noConfusion hh)
  | Except.error _, Except.ok _ => isFalse (fun hh => Except.noConfusion hh)
  | Except.error x, Except.error y =>
    if h : x = y then isTrue (congrArg Except.error h)
    else isFalse (fun hh => h (Except.error.inj hh))

/-- A line on which the parser raises: its BOM-stripped form matches the
header grammar but the date/time parses under neither supported format. -/
def badHeaderLine (l : String) : Bool :=
  match headerMatch (rstripBom l) with
  | some h => !(exceptIsOk (parse_timestamp h))
  | none => false

/-- A line classified as a message header by the parser. -/
def isHeaderLine (l : String) : Bool := (headerMatch (rstripBom l)).isSome

/-- Overall sentiment as the specification words it (claim C1): the
arithmetic mean of the scores of exactly those participants with at least
one matched positive- or negative-lexicon word, undefined when no
participant has a signal word. -/
def overallSentimentSpec (conv : Conversation) : Option ℚ :=
  let participantMessages :=
    (conv.messages.filter (fun m => m.content ≠ "")).filter (fun m => ¬ m.is_system)
  let entries := compute_sentiment (per_participant participantMessages)
  let withSignal := entries.filter (fun g => g.2.positive + g.2.negative ≠ 0)
  if withSignal ≠ [] then
    some (roundTo 3 (sumQ (withSignal.map (·.2.sentiment_score)) / (withSignal.length : ℚ)))
  else none

/-- Token normalization as the specification words it (claim C7):
lower-case, NFKD-decompose, strip the combining marks (and nothing else),
then strip leading/trailing apostrophes. -/
def normalizeWordSpec (w : String) : String :=
  String.mk (stripApos ((nfkdStr (w.toList.map pyLowerChar)).filter (fun c => ¬ isCombining c)))

/-- Response deltas as the specification words them (claim C2): pair each
non-system content-bearing message with the immediately preceding such
message; when the senders differ and the elapsed minutes are nonnegative,
record the delta for the new (later) sender. -/
def responseDeltasSpec (msgs : List Message) : List (String × ℚ) :=
  (msgs.zip msgs.tail).filterMap fun pm =>
    match pm.2.sender with
    | some s =>
      let delta : ℚ := ((tsMinutes pm.2.timestamp - tsMinutes pm.1.timestamp : Int) : ℚ)
      if pm.1.sender ≠ some s ∧ 0 ≤ delta then some (s, delta) else none
    | none => none

/-- The spec-side deltas with an explicit "previous message" state, used to
relate the one-pass loop to `responseDeltasSpec`. -/
def responseDeltasFrom (prev : Option Message) (msgs : List Message) :
    List (String × ℚ) :=
  match prev with
  | none => responseDeltasSpec msgs
  | some p => responseDeltasSpec (p :: msgs)

/-! ## Concrete inputs used by counterexamples and witnesses -/

/-- The Greek letter mu as a one-character string: a word character that is
unchanged by combining-mark stripping but is dropped entirely by
`encode("ASCII", "ignore")`. -/
def muStr : String := String.mk [Char.ofNat 0x3BC]

def tsAt (h m : Nat) : Timestamp := ⟨2023, 5, 10, h, m⟩

def msgA (h mi : Nat) (c : String) : Message := ⟨tsAt h mi, some "A", c, false⟩

def msgB (h mi : Nat) (c : String) : Message := ⟨tsAt h mi, some "B", c, false⟩

/-- Two participants; `A` has one positive-lexicon word, `B` has no signal
word at all. -/
def convC1 : Conversation := ⟨["A", "B"], [msgA 10 0 "amor", msgB 10 5 "xyz"]⟩

/-- A small two-participant conversation exercising response times,
sentiment and the relationship score. -/
def convDemo : Conversation :=
  ⟨["A", "B"], [msgA 10 0 "amor amor xyz", msgB 10 7 "xyz pqr", msgA 10 9 "problema"]⟩

/-- A message whose only word token is the letter mu. -/
def msgMu : Message := ⟨tsAt 10 0, some "A", muStr, false⟩

/-- The token `a`-mu-`b`: ASCII-ignore maps it to `ab`, combining-mark
stripping leaves it unchanged. -/
def muMidStr : String := "a" ++ muStr ++ "b"

/-- A message whose only word token is `a`-mu-`b`. -/
def msgMuMid : Message := ⟨tsAt 10 0, some "A", muMidStr, false⟩

/-- A header line whose 3-digit year parses under neither date format. -/
def rawBadYear : String := "1/1/999 10:00 - A: x"

/-- A multi-line export where every header line parses. -/
def rawDemo : String :=
  "noise before the first header\n12/3/2023 09:05 - Alice: hi\ncont line\n\n13/3/2023, 10:06 - Bob: yo\n14/3/2023 11:00 - Alice left"

/-- A line carrying a *leading* byte-order marker before a valid header. -/
def rawLeadingBom : String :=
  String.mk [Char.ofNat 0xFEFF] ++ "12/3/2023 09:05 - Alice: oi"

def rawNoBom : String := "12/3/2023 09:05 - Alice: oi"

/-! # Theorems -/

/-- C4: timestamp parsing tries the 4-digit-year format first and the
2-digit-year format second, returning the first that parses; in
particular `"1/2/2023 10:00 - A: x"` yields a message with year 2023. -/
theorem date_format_precedence :
    (∀ (h : Header) (t : Timestamp),
      strptimeFormat false h = some t → parse_timestamp h = Except.ok t) ∧
    (∀ (h : Header) (t : Timestamp), strptimeFormat false h = none →
      strptimeFormat true h = some t → parse_timestamp h = Except.ok t) ∧
    (parse_exported_text "1/2/2023 10:00 - A: x").map
      (fun c => c.messages.map fun m => m.timestamp.year) = Except.ok [2023] := by
  refine ⟨?_, ?_, ?_⟩
  · intro h t hf
    simp [parse_timestamp, hf]
  · intro h t hf1 hf2
    simp [parse_timestamp, hf1, hf2]
  · with_unfolding_all decide

/-- C4 witness: the first conjunct applied to the header of
`"1/2/2023 10:00 - A: x"`, whose 4-digit-year parse succeeds. -/
theorem date_format_precedence_witness :
    parse_timestamp ⟨"1", "2", "2023", "10", "00", "A: x"⟩ =
      Except.ok ⟨2023, 2, 1, 10, 0⟩ :=
  date_format_precedence.1 ⟨"1", "2", "2023", "10", "00", "A: x"⟩
    ⟨2023, 2, 1, 10, 0⟩ (by with_unfolding_all decide)

/-- C8 (code bug): the per-line byte-order-marker strip uses
`rstrip("﻿")`, which removes *trailing* U+FEFF characters only.  A
line carrying a *leading* BOM before a valid header keeps the BOM, fails
the header pattern and is silently dropped, so the whole message is lost —
whereas the same line without the BOM (or with the claimed leading-strip
behavior) parses into one message from Alice. -/
theorem bom_strip_is_trailing_only :
    rstripBom rawLeadingBom = rawLeadingBom ∧
    rstripBom ("a" ++ String.mk [bom]) = "a" ∧
    parse_exported_text rawLeadingBom = Except.ok ⟨[], []⟩ ∧
    parse_exported_text rawNoBom =
      Except.ok ⟨["Alice"], [⟨⟨2023, 3, 12, 9, 5⟩, some "Alice", "oi", false⟩]⟩ := by
  refine ⟨?_, ?_, ?_, ?_⟩ <;> with_unfolding_all decide

/-- C1 counterexample: in `convC1`, participant A has one positive word
and participant B no signal word at all.  The claimed overall sentiment
(mean over participants with a signal word only) is 1.0, but the code
averages over *all* participants — B contributes 0.0 — giving 0.5. -/
theorem overall_sentiment_spec_mismatch :
    (compute_statistics convC1).overall_sentiment_score = some (1 / 2) ∧
    overallSentimentSpec convC1 = some 1 ∧
    ((1 : ℚ) / 2) ≠ 1 := by
  refine ⟨?_, ?_, ?_⟩ <;> with_unfolding_all decide

/-- C1 (amended): the overall sentiment score is the arithmetic mean of
the per-participant sentiment scores over *all* participants with at least
one counted message (a participant with no signal word contributes the
neutral score 0.0), rounded to three decimals; it is undefined (`None`)
exactly when there is no such participant. -/
theorem overall_sentiment_mean_over_all_participants (conv : Conversation) :
    (compute_statistics conv).overall_sentiment_score =
      (if compute_sentiment (per_participant
            ((conv.messages.filter (fun m => m.content ≠ "")).filter
              (fun m => ¬ m.is_system))) = [] then none
       else some (roundTo 3
         (sumQ ((compute_sentiment (per_participant
             ((conv.messages.filter (fun m => m.content ≠ "")).filter
               (fun m => ¬ m.is_system)))).map (·.2.sentiment_score)) /
          ((compute_sentiment (per_participant
             ((conv.messages.filter (fun m => m.content ≠ "")).filter
               (fun m => ¬ m.is_system)))).length : ℚ)))) := by
  by_cases h : compute_sentiment (per_participant
      ((conv.messages.filter (fun m => m.content ≠ "")).filter
        (fun m => ¬ m.is_system))) = []
  · simp [compute_statistics, h]
  · simp [compute_statistics, h]

theorem compute_relationship_score_of_empty (shares : List (String × ℚ))
    (emoji : Counter) (days : Nat) (resp sent : Option ℚ) :
    compute_relationship_score shares [] emoji days resp sent = ⟨0, none, none⟩ := by
  simp [compute_relationship_score]

theorem compute_relationship_score_of_nonempty (shares : List (String × ℚ))
    (pm : List Message) (emoji : Counter) (days : Nat) (resp sent : Option ℚ)
    (hpm : pm ≠ []) :
    compute_relationship_score shares pm emoji days resp sent ≠ ⟨0, none, none⟩ ∧
    (compute_relationship_score shares pm emoji days resp sent).score =
      roundTo 1 ((balanceScore shares * (30 / 100)
        + engagementScore pm.length days * (25 / 100)
        + positiveEmojiScore emoji * (20 / 100)
        + responsivenessScore resp * (15 / 100)
        + sentimentComponent sent * (10 / 100)) * 100) := by
  rw [compute_relationship_score, if_neg hpm]
  constructor
  · intro h
    exact Option.noConfusion (congrArg RelOutput.components h)
  · show roundTo 1 (weightedRelScore _ _ _ _ _) = _
    rw [weightedRelScore]

/-- C9: the relationship score is the zero default (score 0, empty
components and inputs) iff the conversation has no non-system message with
non-empty content; otherwise its score is the weighted sum of the five
sub-scores — balance 0.30, engagement 0.25, positive emoji 0.20,
responsiveness 0.15, sentiment 0.10 — times 100, rounded to one decimal. -/
theorem relationship_score_default_iff_formula (conv : Conversation) :
    ((compute_statistics conv).relationship_score = ⟨0, none, none⟩ ↔
      (conv.messages.filter (fun m => m.content ≠ "")).filter (fun m => ¬ m.is_system) = []) ∧
    ((conv.messages.filter (fun m => m.content ≠ "")).filter (fun m => ¬ m.is_system) ≠ [] →
      (compute_statistics conv).relationship_score.score =
        roundTo 1 ((balanceScore (compute_statistics conv).participant_share * (30 / 100)
          + engagementScore (compute_statistics conv).participant_messages
              (compute_statistics conv).active_days_with_messages * (25 / 100)
          + positiveEmojiScore (count_emojis
              ((conv.messages.filter (fun m => m.content ≠ "")).filter
                (fun m => ¬ m.is_system))) * (20 / 100)
          + responsivenessScore
              (compute_statistics conv).overall_average_response_time_minutes * (15 / 100)
          + sentimentComponent
              (compute_statistics conv).overall_sentiment_score * (10 / 100)) * 100)) := by
  have hproj : (compute_statistics conv).relationship_score =
      compute_relationship_score (compute_statistics conv).participant_share
        ((conv.messages.filter (fun m => m.content ≠ "")).filter (fun m => ¬ m.is_system))
        (count_emojis
          ((conv.messages.filter (fun m => m.content ≠ "")).filter (fun m => ¬ m.is_system)))
        (compute_statistics conv).active_days_with_messages
        (compute_statistics conv).overall_average_response_time_minutes
        (compute_statistics conv).overall_sentiment_score := rfl
  by_cases hpm : (conv.messages.filter (fun m => m.content ≠ "")).filter
      (fun m => ¬ m.is_system) = []
  · refine ⟨iff_of_true ?_ hpm, fun h => absurd hpm h⟩
    rw [hproj, hpm]
    exact compute_relationship_score_of_empty _ _ _ _ _
  · have hne := compute_relationship_score_of_nonempty
      (compute_statistics conv).participant_share
      ((conv.messages.filter (fun m => m.content ≠ "")).filter (fun m => ¬ m.is_system))
      (count_emojis
        ((conv.messages.filter (fun m => m.content ≠ "")).filter (fun m => ¬ m.is_system)))
      (compute_statistics conv).active_days_with_messages
      (compute_statistics conv).overall_average_response_time_minutes
      (compute_statistics conv).overall_sentiment_score hpm
    refine ⟨iff_of_false ?_ hpm, fun _ => ?_⟩
    · rw [hproj]
      exact hne.1
    · rw [hproj]
      have hlen : ((conv.messages.filter (fun m => m.content ≠ "")).filter
          (fun m => ¬ m.is_system)).length = (compute_statistics conv).participant_messages := rfl
      rw [hne.2, hlen]

/-- C9 witness: the formula evaluated on the concrete two-participant
conversation `convDemo`, which has content-bearing non-system messages. -/
theorem relationship_score_formula_witness :
    (compute_statistics convDemo).relationship_score.score =
      roundTo 1 ((balanceScore (compute_statistics convDemo).participant_share * (30 / 100)
        + engagementScore (compute_statistics convDemo).participant_messages
            (compute_statistics convDemo).active_days_with_messages * (25 / 100)
        + positiveEmojiScore (count_emojis
            ((convDemo.messages.filter (fun m => m.content ≠ "")).filter
              (fun m => ¬ m.is_system))) * (20 / 100)
        + responsivenessScore
            (compute_statistics convDemo).overall_average_response_time_minutes * (15 / 100)
        + sentimentComponent
            (compute_statistics convDemo).overall_sentiment_score * (10 / 100)) * 100) :=
  (relationship_score_default_iff_formula convDemo).2 (by with_unfolding_all decide)

theorem lookupCount_bump (k w : String) :
    ∀ c : Counter, lookupCount (bump c k) w = lookupCount c w + (if k = w then 1 else 0) := by
  intro c
  induction c with
  | nil => by_cases h : k = w <;> simp [bump, lookupCount, List.find?, h]
  | cons p rest ih =>
    obtain ⟨k2, v⟩ := p
    by_cases h1 : k2 = k
    · by_cases h2 : k2 = w
      · have hkw : k = w := by rw [← h1]; exact h2
        simp [bump, lookupCount, List.find?, h1, h2, hkw]
      · have hkw : ¬ k = w := by rw [← h1]; exact h2
        simp [bump, lookupCount, List.find?, h1, h2, hkw]
    · by_cases h2 : k2 = w
      · have hkw : ¬ k = w := fun hh => h1 (h2.trans hh.symm)
        have hwk : ¬ w = k := fun hh => hkw hh.symm
        simp [bump, lookupCount, List.find?, h1, h2, hkw, hwk]
      · simpa [bump, lookupCount, List.find?, h1, h2] using ih

theorem lookupCount_foldl_bump (e : String) :
    ∀ (l : List String) (acc : Counter),
      lookupCount (l.foldl bump acc) e = lookupCount acc e + l.count e := by
  intro l
  induction l with
  | nil => simp
  | cons t rest ih =>
    intro acc
    have hcount : (t :: rest).count e = rest.count e + (if t = e then 1 else 0) := by
      rw [List.count_cons]
      by_cases h : t = e
      · simp [h]
      · have hb : (e == t) = false := beq_eq_false_iff_ne.mpr fun hh => h hh.symm
        simp [h, hb]
    rw [List.foldl_cons, ih, lookupCount_bump, hcount]
    omega

theorem lookupCount_count_emojis_aux (e : String) :
    ∀ (msgs : List Message) (acc : Counter),
      lookupCount (msgs.foldl (fun acc m => (emojiMatches m.content).foldl bump acc) acc) e
        = lookupCount acc e + (msgs.map (fun m => (emojiMatches m.content).count e)).sum := by
  intro msgs
  induction msgs with
  | nil => simp
  | cons m rest ih =>
    intro acc
    rw [List.foldl_cons, ih, lookupCount_foldl_bump]
    simp
    omega

/-- C10: the emoji counter is accumulated over exactly the non-system
messages with non-empty content (so an emoji in a system or empty message
never contributes), and it counts every emoji occurrence of those messages
unconditionally — in particular the media-placeholder ignore list used for
word/sentiment counting plays no role in the accumulation. -/
theorem emoji_counts_domain (conv : Conversation) (e : String) :
    (compute_statistics conv).emoji_counts =
      most_common 15 (count_emojis
        ((conv.messages.filter (fun m => m.content ≠ "")).filter (fun m => ¬ m.is_system))) ∧
    lookupCount (count_emojis
        ((conv.messages.filter (fun m => m.content ≠ "")).filter (fun m => ¬ m.is_system))) e
      = (((conv.messages.filter (fun m => m.content ≠ "")).filter
          (fun m => ¬ m.is_system)).map (fun m => (emojiMatches m.content).count e)).sum := by
  constructor
  · rfl
  · have ha := lookupCount_count_emojis_aux e
      ((conv.messages.filter (fun m => m.content ≠ "")).filter (fun m => ¬ m.is_system)) []
    have h0 : lookupCount [] e = 0 := rfl
    rw [h0, Nat.zero_add] at ha
    exact ha

theorem filter_orderedInsert (c : Nat) (x : String × Nat) :
    ∀ l : List (String × Nat),
      (List.orderedInsert (fun p q => q.2 ≤ p.2) x l).filter (fun p => p.2 = c)
        = if x.2 = c then x :: l.filter (fun p => p.2 = c)
          else l.filter (fun p => p.2 = c) := by
  intro l
  induction l with
  | nil => by_cases h : x.2 = c <;> simp [List.orderedInsert, h]
  | cons y ys ih =>
    by_cases hr : y.2 ≤ x.2
    · rw [List.orderedInsert, if_pos hr]
      by_cases h : x.2 = c <;> by_cases hy : y.2 = c <;>
        simp [h, hy, List.filter_cons]
    · rw [List.orderedInsert, if_neg hr]
      by_cases h : x.2 = c
      · have hy : ¬ (y.2 = c) := by omega
        simp [h, hy, ih, List.filter_cons]
      · by_cases hy : y.2 = c <;> simp [h, hy, ih, List.filter_cons]

theorem filter_insertionSort (c : Nat) :
    ∀ cnt : Counter,
      (cnt.insertionSort (fun p q => q.2 ≤ p.2)).filter (fun p => p.2 = c)
        = cnt.filter (fun p => p.2 = c) := by
  intro cnt
  induction cnt with
  | nil => simp [List.insertionSort]
  | cons a l ih =>
    rw [List.insertionSort, filter_orderedInsert]
    by_cases h : a.2 = c <;> simp [h, ih, List.filter_cons]

/-- Stability of `most_common`: for each fixed count value, the reported
top-`n` entries with that count form a prefix of the counter's entries with
that count, in the counter's own (first-insertion) order. -/
theorem filter_most_common (n : Nat) (cnt : Counter) (c : Nat) :
    ∃ t, cnt.filter (fun p => p.2 = c)
      = (most_common n cnt).filter (fun p => p.2 = c) ++ t := by
  refine ⟨((cnt.insertionSort (fun p q => q.2 ≤ p.2)).drop n).filter
    (fun p => p.2 = c), ?_⟩
  rw [most_common, ← List.filter_append, List.take_append_drop, filter_insertionSort]

/-- C6: in the per-participant top-10 word lists and the global top-15
emoji list, entries sharing a count appear in the order in which they were
first inserted into the count accumulator: for every count value, the
filtered top list is a prefix of the filtered accumulator. -/
theorem top_lists_tie_order (conv : Conversation) (c : Nat) :
    (∃ t, (count_emojis ((conv.messages.filter (fun m => m.content ≠ "")).filter
          (fun m => ¬ m.is_system))).filter (fun p => p.2 = c)
        = ((compute_statistics conv).emoji_counts).filter (fun p => p.2 = c) ++ t) ∧
    (∀ g ∈ per_participant ((conv.messages.filter (fun m => m.content ≠ "")).filter
        (fun m => ¬ m.is_system)),
      (g.1, most_common 10 (count_words g.2)) ∈
          (compute_statistics conv).top_words_per_participant ∧
      ∃ t, (count_words g.2).filter (fun p => p.2 = c)
          = (most_common 10 (count_words g.2)).filter (fun p => p.2 = c) ++ t) := by
  constructor
  · have h : (compute_statistics conv).emoji_counts =
        most_common 15 (count_emojis
          ((conv.messages.filter (fun m => m.content ≠ "")).filter
            (fun m => ¬ m.is_system))) := rfl
    rw [h]
    exact filter_most_common 15 _ c
  · intro g hg
    constructor
    · have h : (compute_statistics conv).top_words_per_participant =
        ((per_participant ((conv.messages.filter (fun m => m.content ≠ "")).filter
            (fun m => ¬ m.is_system))).map
          (fun g => (g.1, count_words g.2))).map
            (fun g => (g.1, most_common 10 g.2)) := rfl
      rw [h, List.map_map]
      exact List.mem_map_of_mem _ hg
    · exact filter_most_common 10 _ c

/-- C6 witness: participant A's group of `convDemo`, count value 1 (its
two once-occurring words appear in first-insertion order). -/
theorem top_lists_tie_order_witness :
    (("A", [msgA 10 0 "amor amor xyz", msgA 10 9 "problema"]) ∈
      per_participant ((convDemo.messages.filter (fun m => m.content ≠ "")).filter
        (fun m => ¬ m.is_system))) ∧
    (("A", most_common 10 (count_words [msgA 10 0 "amor amor xyz", msgA 10 9 "problema"])) ∈
        (compute_statistics convDemo).top_words_per_participant ∧
      ∃ t, (count_words [msgA 10 0 "amor amor xyz", msgA 10 9 "problema"]).filter
            (fun p => p.2 = 1)
          = (most_common 10 (count_words [msgA 10 0 "amor amor xyz", msgA 10 9 "problema"])).filter
              (fun p => p.2 = 1) ++ t) :=
  ⟨by with_unfolding_all decide,
   (top_lists_tie_order convDemo 1).2
     ("A", [msgA 10 0 "amor amor xyz", msgA 10 9 "problema"])
     (by with_unfolding_all decide)⟩

/-- C7 counterexample: `_normalize_word` is NFKD plus
`encode("ASCII","ignore")`, which drops *every* non-ASCII character, not
just combining marks.  The word token mu survives the claimed
normalization (lower-case, decompose, strip combining marks, strip
apostrophes) as a non-empty non-stop-word — so per the claim it would be
counted — yet the code discards it; and the counted key for the token
`a`-mu-`b` is `ab`, which the claimed normalization cannot produce. -/
theorem word_normalization_mismatch :
    wordMatches (pyLower muStr) = [muStr] ∧
    normalizeWordSpec muStr = muStr ∧
    muStr ∉ STOPWORDS ∧ muStr ≠ "" ∧
    count_words [msgMu] = [] ∧
    count_words [msgMuMid] = [("ab", 1)] ∧
    normalizeWordSpec muMidStr = muMidStr ∧ muMidStr ≠ "ab" := by
  refine ⟨?_, ?_, ?_, ?_, ?_, ?_, ?_, ?_⟩ <;> with_unfolding_all decide

theorem lookupCount_words_token_fold (w : String) :
    ∀ (tokens : List String) (acc : Counter),
      lookupCount (tokens.foldl
        (fun a t =>
          if normalize_word t = "" ∨ normalize_word t ∈ STOPWORDS then a
          else bump a (normalize_word t)) acc) w
      = lookupCount acc w +
          (if w ≠ "" ∧ w ∉ STOPWORDS then
            tokens.countP (fun t => normalize_word t = w) else 0) := by
  intro tokens
  induction tokens with
  | nil => simp
  | cons t rest ih =>
    intro acc
    rw [List.foldl_cons]
    by_cases hx : normalize_word t = "" ∨ normalize_word t ∈ STOPWORDS
    · rw [if_pos hx, ih]
      by_cases hadm : w ≠ "" ∧ w ∉ STOPWORDS
      · rw [if_pos hadm, if_pos hadm]
        have hpt : ¬ (normalize_word t = w) := by
          intro hh
          rw [hh] at hx
          rcases hx with hx | hx
          · exact hadm.1 hx
          · exact hadm.2 hx
        simp [List.countP_cons, hpt]
      · rw [if_neg hadm, if_neg hadm]
    · rw [if_neg hx, ih, lookupCount_bump]
      by_cases hadm : w ≠ "" ∧ w ∉ STOPWORDS
      · rw [if_pos hadm, if_pos hadm]
        by_cases ht : normalize_word t = w
        · rw [if_pos ht]
          simp only [List.countP_cons, ht]
          simp
          omega
        · rw [if_neg ht]
          simp only [List.countP_cons]
          simp [ht]
      · rw [if_neg hadm, if_neg hadm]
        have ht : ¬ (normalize_word t = w) := by
          intro hh
          rw [hh] at hx
          rcases not_and_or.mp hadm with hadm | hadm
          · exact hx (Or.inl (not_not.mp hadm))
          · exact hx (Or.inr (not_not.mp hadm))
        rw [if_neg ht]

theorem lookupCount_count_words_aux (w : String) :
    ∀ (msgs : List Message) (acc : Counter),
      lookupCount (msgs.foldl
        (fun acc m =>
          if should_ignore_for_word_counts m.content then acc
          else
            (wordMatches (pyLower m.content)).foldl
              (fun a t =>
                if normalize_word t = "" ∨ normalize_word t ∈ STOPWORDS then a
                else bump a (normalize_word t))
              acc) acc) w
      = lookupCount acc w +
          (if w ≠ "" ∧ w ∉ STOPWORDS then
            ((msgs.filter (fun m => ¬ should_ignore_for_word_counts m.content)).map
              (fun m => (wordMatches (pyLower m.content)).countP
                (fun t => normalize_word t = w))).sum
          else 0) := by
  intro msgs
  induction msgs with
  | nil => simp
  | cons m rest ih =>
    intro acc
    rw [List.foldl_cons]
    by_cases hig : should_ignore_for_word_counts m.content
    · rw [if_pos hig, ih]
      have hf : (m :: rest).filter (fun m => ¬ should_ignore_for_word_counts m.content)
          = rest.filter (fun m => ¬ should_ignore_for_word_counts m.content) := by
        simp [List.filter_cons, hig]
      rw [hf]
    · rw [if_neg hig, ih, lookupCount_words_token_fold]
      have hf : (m :: rest).filter (fun m => ¬ should_ignore_for_word_counts m.content)
          = m :: rest.filter (fun m => ¬ should_ignore_for_word_counts m.content) := by
        simp [List.filter_cons, hig]
      rw [hf]
      by_cases hadm : w ≠ "" ∧ w ∉ STOPWORDS
      · rw [if_pos hadm, if_pos hadm, if_pos hadm]
        simp only [List.map_cons, List.sum_cons]
        omega
      · rw [if_neg hadm, if_neg hadm, if_neg hadm]

theorem sentiment_token_fold :
    ∀ (tokens : List String) (pn : Nat × Nat),
      tokens.foldl
        (fun pn t =>
          if normalize_word t ∈ POSITIVE_WORDS then (pn.1 + 1, pn.2)
          else if normalize_word t ∈ NEGATIVE_WORDS then (pn.1, pn.2 + 1)
          else pn) pn
      = (pn.1 + tokens.countP (fun t => normalize_word t ∈ POSITIVE_WORDS),
         pn.2 + tokens.countP (fun t =>
           normalize_word t ∉ POSITIVE_WORDS ∧ normalize_word t ∈ NEGATIVE_WORDS)) := by
  intro tokens
  induction tokens with
  | nil => simp
  | cons t rest ih =>
    intro pn
    rw [List.foldl_cons]
    by_cases hp : normalize_word t ∈ POSITIVE_WORDS
    · rw [if_pos hp, ih]
      have h2 : ¬ (normalize_word t ∉ POSITIVE_WORDS ∧ normalize_word t ∈ NEGATIVE_WORDS) :=
        fun hh => hh.1 hp
      simp only [List.countP_cons]
      simp [hp, h2, Prod.ext_iff]
      omega
    · by_cases hn : normalize_word t ∈ NEGATIVE_WORDS
      · rw [if_neg hp, if_pos hn, ih]
        have h2 : normalize_word t ∉ POSITIVE_WORDS ∧ normalize_word t ∈ NEGATIVE_WORDS :=
          ⟨hp, hn⟩
        simp only [List.countP_cons]
        simp [hp, h2, Prod.ext_iff]
        omega
      · rw [if_neg hp, if_neg hn, ih]
        have h2 : ¬ (normalize_word t ∉ POSITIVE_WORDS ∧ normalize_word t ∈ NEGATIVE_WORDS) :=
          fun hh => hn hh.2
        simp only [List.countP_cons]
        simp [hp, hn, h2]

theorem sentimentCounts_aux :
    ∀ (personal : List Message) (pn : Nat × Nat),
      personal.foldl
        (fun pn m =>
          if should_ignore_for_word_counts m.content then pn
          else
            (wordMatches (pyLower m.content)).foldl
              (fun pn t =>
                if normalize_word t ∈ POSITIVE_WORDS then (pn.1 + 1, pn.2)
                else if normalize_word t ∈ NEGATIVE_WORDS then (pn.1, pn.2 + 1)
                else pn)
              pn) pn
      = (pn.1 + ((personal.filter (fun m => ¬ should_ignore_for_word_counts m.content)).map
            (fun m => (wordMatches (pyLower m.content)).countP
              (fun t => normalize_word t ∈ POSITIVE_WORDS))).sum,
         pn.2 + ((personal.filter (fun m => ¬ should_ignore_for_word_counts m.content)).map
            (fun m => (wordMatches (pyLower m.content)).countP
              (fun t => normalize_word t ∉ POSITIVE_WORDS ∧
                normalize_word t ∈ NEGATIVE_WORDS))).sum) := by
  intro personal
  induction personal with
  | nil => simp
  | cons m rest ih =>
    intro pn
    rw [List.foldl_cons]
    by_cases hig : should_ignore_for_word_counts m.content
    · rw [if_pos hig, ih]
      simp [List.filter_cons, hig]
    · rw [if_neg hig, sentiment_token_fold, ih]
      simp only [List.filter_cons, hig]
      simp [Prod.ext_iff]
      constructor <;> omega

/-- C7 (amended): every token counted toward word frequencies and
sentiment is normalized by lower-casing, NFKD decomposition, then removing
*every non-ASCII character* (`encode("ASCII","ignore")` — this strips the
combining marks but also drops any other non-ASCII character entirely),
then stripping leading/trailing apostrophes; tokens that are empty after
this normalization or belong to the stop-word list are discarded before
word counting. -/
theorem token_pipeline_characterization :
    (∀ (msgs : List Message) (w : String),
      lookupCount (count_words msgs) w =
        (if w ≠ "" ∧ w ∉ STOPWORDS then
          ((msgs.filter (fun m => ¬ should_ignore_for_word_counts m.content)).map
            (fun m => (wordMatches (pyLower m.content)).countP
              (fun t => normalize_word t = w))).sum
        else 0)) ∧
    (∀ personal : List Message,
      sentimentCounts personal =
        (((personal.filter (fun m => ¬ should_ignore_for_word_counts m.content)).map
            (fun m => (wordMatches (pyLower m.content)).countP
              (fun t => normalize_word t ∈ POSITIVE_WORDS))).sum,
         ((personal.filter (fun m => ¬ should_ignore_for_word_counts m.content)).map
            (fun m => (wordMatches (pyLower m.content)).countP
              (fun t => normalize_word t ∉ POSITIVE_WORDS ∧
                normalize_word t ∈ NEGATIVE_WORDS))).sum)) := by
  constructor
  · intro msgs w
    have h := lookupCount_count_words_aux w msgs []
    have h0 : lookupCount [] w = 0 := rfl
    rw [h0, Nat.zero_add] at h
    exact h
  · intro personal
    have h := sentimentCounts_aux personal (0, 0)
    simpa using h

theorem lookupList_appendAt {α : Type} (k s : String) (v : α) :
    ∀ l : List (String × List α),
      lookupList (appendAt l k v) s = lookupList l s ++ (if k = s then [v] else []) := by
  intro l
  induction l with
  | nil => by_cases h : k = s <;> simp [appendAt, lookupList, List.find?, h]
  | cons p rest ih =>
    obtain ⟨k2, vs⟩ := p
    by_cases h1 : k2 = k
    · by_cases h2 : k2 = s
      · have hks : k = s := by rw [← h1]; exact h2
        simp [appendAt, lookupList, List.find?, h1, h2, hks]
      · have hks : ¬ k = s := by rw [← h1]; exact h2
        simp [appendAt, lookupList, List.find?, h1, h2, hks]
    · by_cases h2 : k2 = s
      · have hks : ¬ k = s := fun hh => h1 (h2.trans hh.symm)
        have hsk : ¬ s = k := fun hh => hks hh.symm
        simp [appendAt, lookupList, List.find?, h1, h2, hks, hsk]
      · simpa [appendAt, lookupList, List.find?, h1, h2] using ih

theorem appendAt_nonempty {α : Type} (k : String) (v : α) :
    ∀ l : List (String × List α), (∀ g ∈ l, g.2 ≠ []) →
      ∀ g ∈ appendAt l k v, g.2 ≠ [] := by
  intro l
  induction l with
  | nil =>
    intro _ g hg
    simp [appendAt] at hg
    rw [hg]
    simp
  | cons p rest ih =>
    intro hl g hg
    obtain ⟨k2, vs⟩ := p
    by_cases h1 : k2 = k
    · rw [appendAt, if_pos h1] at hg
      rcases List.mem_cons.mp hg with hg | hg
      · rw [hg]
        simp
      · exact hl g (List.mem_cons_of_mem _ hg)
    · rw [appendAt, if_neg h1] at hg
      rcases List.mem_cons.mp hg with hg | hg
      · rw [hg]
        exact hl (k2, vs) (List.mem_cons_self _ _)
      · exact ih (fun x hx => hl x (List.mem_cons_of_mem _ hx)) g hg

theorem responseTimesAux_nonempty :
    ∀ (msgs : List Message) (prev : Option Message) (acc : List (String × List ℚ)),
      (∀ g ∈ acc, g.2 ≠ []) → ∀ g ∈ responseTimesAux prev msgs acc, g.2 ≠ [] := by
  intro msgs
  induction msgs with
  | nil =>
    intro prev acc hacc
    simpa [responseTimesAux] using hacc
  | cons m rest ih =>
    intro prev acc hacc
    cases hs : m.sender with
    | none =>
      have hstep : responseTimesAux prev (m :: rest) acc
          = responseTimesAux prev rest acc := by
        conv_lhs => rw [responseTimesAux]
        simp only [hs]
      rw [hstep]
      exact ih prev acc hacc
    | some s0 =>
      cases prev with
      | none =>
        have hstep : responseTimesAux none (m :: rest) acc
            = responseTimesAux (some m) rest acc := by
          conv_lhs => rw [responseTimesAux]
          simp only [hs]
        rw [hstep]
        exact ih (some m) acc hacc
      | some p =>
        cases hps : p.sender with
        | none =>
          have hstep : responseTimesAux (some p) (m :: rest) acc
              = responseTimesAux (some m) rest acc := by
            conv_lhs => rw [responseTimesAux]
            simp only [hs, hps]
          rw [hstep]
          exact ih (some m) acc hacc
        | some ps =>
          have hstep : responseTimesAux (some p) (m :: rest) acc
              = responseTimesAux (some m) rest
                (if ps ≠ s0 ∧
                    0 ≤ ((tsMinutes m.timestamp - tsMinutes p.timestamp : Int) : ℚ) then
                  appendAt acc s0
                    ((tsMinutes m.timestamp - tsMinutes p.timestamp : Int) : ℚ)
                else acc) := by
            conv_lhs => rw [responseTimesAux]
            simp only [hs, hps]
          rw [hstep]
          by_cases hc : ps ≠ s0 ∧
            0 ≤ ((tsMinutes m.timestamp - tsMinutes p.timestamp : Int) : ℚ)
          · rw [if_pos hc]
            exact ih (some m) _ (appendAt_nonempty _ _ acc hacc)
          · rw [if_neg hc]
            exact ih (some m) acc hacc

theorem responseTimesAux_lookup (s : String) :
    ∀ (msgs : List Message) (prev : Option Message) (acc : List (String × List ℚ)),
      (∀ m ∈ msgs, m.sender ≠ none) →
      (∀ p, prev = some p → p.sender ≠ none) →
      lookupList (responseTimesAux prev msgs acc) s
        = lookupList acc s ++ (responseDeltasFrom prev msgs).filterMap
            (fun d => if d.1 = s then some d.2 else none) := by
  intro msgs
  induction msgs with
  | nil =>
    intro prev acc _ _
    cases prev with
    | none => simp [responseTimesAux, responseDeltasFrom, responseDeltasSpec]
    | some p => simp [responseTimesAux, responseDeltasFrom, responseDeltasSpec]
  | cons m rest ih =>
    intro prev acc hall hprev
    have hm : m.sender ≠ none := hall m (List.mem_cons_self m rest)
    obtain ⟨s0, hs0⟩ := Option.ne_none_iff_exists'.mp hm
    have hrest : ∀ x ∈ rest, x.sender ≠ none := fun x hx =>
      hall x (List.mem_cons_of_mem _ hx)
    have hmprev : ∀ p, some m = some p → p.sender ≠ none := by
      intro p hp
      injection hp with hp2
      rw [← hp2]
      exact hm
    cases prev with
    | none =>
      have hstep : responseTimesAux none (m :: rest) acc
          = responseTimesAux (some m) rest acc := by
        conv_lhs => rw [responseTimesAux]
        simp only [hs0]
      rw [hstep, ih (some m) acc hrest hmprev]
      rfl
    | some p =>
      obtain ⟨ps, hps⟩ := Option.ne_none_iff_exists'.mp (hprev p rfl)
      have hstep : responseTimesAux (some p) (m :: rest) acc
          = responseTimesAux (some m) rest
              (if ps ≠ s0 ∧
                  0 ≤ ((tsMinutes m.timestamp - tsMinutes p.timestamp : Int) : ℚ) then
                appendAt acc s0
                  ((tsMinutes m.timestamp - tsMinutes p.timestamp : Int) : ℚ)
              else acc) := by
        conv_lhs => rw [responseTimesAux]
        simp only [hs0, hps]
      have hzip : responseDeltasFrom (some p) (m :: rest)
          = (if p.sender ≠ some s0 ∧
                0 ≤ ((tsMinutes m.timestamp - tsMinutes p.timestamp : Int) : ℚ) then
              some (s0, ((tsMinutes m.timestamp - tsMinutes p.timestamp : Int) : ℚ))
            else none).toList ++ responseDeltasFrom (some m) rest := by
        show responseDeltasSpec (p :: m :: rest) = _
        rw [responseDeltasSpec]
        have ht : (p :: m :: rest).zip (p :: m :: rest).tail
            = (p, m) :: ((m :: rest).zip rest) := rfl
        rw [ht, List.filterMap_cons]
        simp only [hs0]
        by_cases hcc : p.sender ≠ some s0 ∧
            0 ≤ ((tsMinutes m.timestamp - tsMinutes p.timestamp : Int) : ℚ)
        · rw [if_pos hcc]
          rfl
        · rw [if_neg hcc]
          rfl
      by_cases hc : ps ≠ s0 ∧
          0 ≤ ((tsMinutes m.timestamp - tsMinutes p.timestamp : Int) : ℚ)
      · have hcc : p.sender ≠ some s0 ∧
            0 ≤ ((tsMinutes m.timestamp - tsMinutes p.timestamp : Int) : ℚ) := by
          rw [hps]
          exact ⟨fun hh => hc.1 (Option.some.inj hh), hc.2⟩
        rw [hstep, if_pos hc, ih (some m) _ hrest hmprev, lookupList_appendAt,
          hzip, if_pos hcc, List.filterMap_append]
        have hone : (List.filterMap (fun d => if d.1 = s then some d.2 else none)
            [(s0, ((tsMinutes m.timestamp - tsMinutes p.timestamp : Int) : ℚ))])
            = if s0 = s
              then [((tsMinutes m.timestamp - tsMinutes p.timestamp : Int) : ℚ)]
              else [] := by
          by_cases hss : s0 = s
          · rw [List.filterMap_cons]
            simp only [hss, if_pos rfl]
            rfl
          · rw [List.filterMap_cons]
            simp only [if_neg hss]
            rfl
        rw [Option.toList_some, hone, List.append_assoc]
      · have hcc : ¬ (p.sender ≠ some s0 ∧
            0 ≤ ((tsMinutes m.timestamp - tsMinutes p.timestamp : Int) : ℚ)) := by
          rw [hps]
          intro hh
          exact hc ⟨fun he => hh.1 (congrArg some he), hh.2⟩
        rw [hstep, if_neg hc, ih (some m) acc hrest hmprev, hzip, if_neg hcc]
        rfl

theorem avg_guard_removal :
    ∀ rts : List (String × List ℚ), (∀ g ∈ rts, g.2 ≠ []) →
      rts.map (fun g => (g.1,
          if g.2 ≠ [] then some (roundTo 2 (sumQ g.2 / (g.2.length : ℚ))) else none))
        = rts.map (fun g => (g.1, some (roundTo 2 (sumQ g.2 / (g.2.length : ℚ))))) := by
  intro rts
  induction rts with
  | nil => intro _; rfl
  | cons g rest ih =>
    intro hne
    rw [List.map_cons, List.map_cons, if_pos (hne g (List.mem_cons_self _ _)),
      ih (fun x hx => hne x (List.mem_cons_of_mem _ hx))]

theorem filterMap_some_map :
    ∀ rts : List (String × List ℚ),
      (rts.map (fun g => (g.1,
          some (roundTo 2 (sumQ g.2 / (g.2.length : ℚ)))))).filterMap (fun p => p.2)
        = rts.map (fun g => roundTo 2 (sumQ g.2 / (g.2.length : ℚ))) := by
  intro rts
  induction rts with
  | nil => rfl
  | cons g rest ih => simp only [List.map_cons, List.filterMap_cons, ih]

/-- C2: when every counted message carries a sender, (a) the per-sender
response-delta lists are exactly the claim's pairing — each non-system
content-bearing message paired with the immediately preceding such
message, the nonnegative minute delta recorded for the *new* sender when
the senders differ, negative deltas discarded; (b) the per-sender averages
are the means of those lists (rounded to two decimals); and (c) the
overall average is the mean of the per-sender averages (a mean of means),
undefined exactly when no sender has a valid delta. -/
theorem response_times_characterization (conv : Conversation)
    (h : ∀ m ∈ conv.messages, m.content ≠ "" → ¬ m.is_system → m.sender ≠ none) :
    (∀ s, lookupList (compute_response_times
        ((conv.messages.filter (fun m => m.content ≠ "")).filter (fun m => ¬ m.is_system))) s
      = (responseDeltasSpec ((conv.messages.filter (fun m => m.content ≠ "")).filter
            (fun m => ¬ m.is_system))).filterMap
          (fun d => if d.1 = s then some d.2 else none)) ∧
    ((compute_statistics conv).average_response_time_minutes
      = (compute_response_times ((conv.messages.filter (fun m => m.content ≠ "")).filter
            (fun m => ¬ m.is_system))).map
          (fun g => (g.1, some (roundTo 2 (sumQ g.2 / (g.2.length : ℚ)))))) ∧
    ((compute_statistics conv).overall_average_response_time_minutes
      = if compute_response_times ((conv.messages.filter (fun m => m.content ≠ "")).filter
            (fun m => ¬ m.is_system)) = [] then none
        else some (roundTo 2 (sumQ ((compute_response_times
              ((conv.messages.filter (fun m => m.content ≠ "")).filter
                (fun m => ¬ m.is_system))).map
              (fun g => roundTo 2 (sumQ g.2 / (g.2.length : ℚ)))) /
            (((compute_response_times ((conv.messages.filter (fun m => m.content ≠ "")).filter
                (fun m => ¬ m.is_system))).map
              (fun g => roundTo 2 (sumQ g.2 / (g.2.length : ℚ)))).length : ℚ)))) := by
  have hsend : ∀ m ∈ (conv.messages.filter (fun m => m.content ≠ "")).filter
      (fun m => ¬ m.is_system), m.sender ≠ none := by
    intro m hm
    have h1 := List.mem_filter.mp hm
    have h2 := List.mem_filter.mp h1.1
    exact h m h2.1 (by simpa using h2.2) (by simpa using h1.2)
  have hne : ∀ g ∈ compute_response_times
      ((conv.messages.filter (fun m => m.content ≠ "")).filter (fun m => ¬ m.is_system)),
      g.2 ≠ [] :=
    responseTimesAux_nonempty _ none [] (fun g hg => absurd hg (List.not_mem_nil g))
  refine ⟨?_, ?_, ?_⟩
  · intro s
    have hl := responseTimesAux_lookup s
      ((conv.messages.filter (fun m => m.content ≠ "")).filter (fun m => ¬ m.is_system))
      none [] hsend (fun p hp => Option.noConfusion hp)
    have h0 : lookupList ([] : List (String × List ℚ)) s = [] := rfl
    rw [h0, List.nil_append] at hl
    exact hl
  · have havg : (compute_statistics conv).average_response_time_minutes
        = (compute_response_times ((conv.messages.filter (fun m => m.content ≠ "")).filter
            (fun m => ¬ m.is_system))).map
          (fun g => (g.1,
            if g.2 ≠ [] then some (roundTo 2 (sumQ g.2 / (g.2.length : ℚ))) else none)) := rfl
    rw [havg, avg_guard_removal _ hne]
  · have hov : (compute_statistics conv).overall_average_response_time_minutes
        = (if ((compute_response_times ((conv.messages.filter (fun m => m.content ≠ "")).filter
              (fun m => ¬ m.is_system))).map
            (fun g => (g.1,
              if g.2 ≠ [] then some (roundTo 2 (sumQ g.2 / (g.2.length : ℚ)))
              else none))).filterMap (fun p => p.2) ≠ [] then
          some (roundTo 2 (sumQ (((compute_response_times
              ((conv.messages.filter (fun m => m.content ≠ "")).filter
                (fun m => ¬ m.is_system))).map
              (fun g => (g.1,
                if g.2 ≠ [] then some (roundTo 2 (sumQ g.2 / (g.2.length : ℚ)))
                else none))).filterMap (fun p => p.2)) /
            ((((compute_response_times ((conv.messages.filter (fun m => m.content ≠ "")).filter
                (fun m => ¬ m.is_system))).map
              (fun g => (g.1,
                if g.2 ≠ [] then some (roundTo 2 (sumQ g.2 / (g.2.length : ℚ)))
                else none))).filterMap (fun p => p.2)).length : ℚ)))
        else none) := rfl
    rw [hov, avg_guard_removal _ hne, filterMap_some_map]
    by_cases hrts : compute_response_times
        ((conv.messages.filter (fun m => m.content ≠ "")).filter (fun m => ¬ m.is_system)) = []
    · rw [hrts]
      simp
    · have hmap : (compute_response_times
          ((conv.messages.filter (fun m => m.content ≠ "")).filter
            (fun m => ¬ m.is_system))).map
          (fun g => roundTo 2 (sumQ g.2 / (g.2.length : ℚ))) ≠ [] := by
        simpa using hrts
      rw [if_pos hmap, if_neg hrts]

/-- C2 witness: participant B's recorded deltas of `convDemo` match the
claimed pairing. -/
theorem response_times_characterization_witness :
    lookupList (compute_response_times
        ((convDemo.messages.filter (fun m => m.content ≠ "")).filter
          (fun m => ¬ m.is_system))) "B"
      = (responseDeltasSpec ((convDemo.messages.filter (fun m => m.content ≠ "")).filter
            (fun m => ¬ m.is_system))).filterMap
          (fun d => if d.1 = "B" then some d.2 else none) :=
  (response_times_characterization convDemo (by with_unfolding_all decide)).1 "B"

theorem headerMatch_empty : headerMatch "" = none := rfl

theorem parse_timestamp_error (hh : Header) (e : String) :
    parse_timestamp hh = Except.error e ↔
      strptimeFormat false hh = none ∧ strptimeFormat true hh = none ∧
        e = tsErrorMsg hh := by
  cases hf1 : strptimeFormat false hh <;> cases hf2 : strptimeFormat true hh <;>
    simp [parse_timestamp, hf1, hf2, eq_comm]

theorem badHeaderLine_of (l : String) (hh : Header)
    (hm : headerMatch (rstripBom l) = some hh)
    (hf1 : strptimeFormat false hh = none) (hf2 : strptimeFormat true hh = none) :
    badHeaderLine l = true := by
  rw [badHeaderLine]
  simp only [hm]
  have hts : parse_timestamp hh = Except.error (tsErrorMsg hh) := by
    simp [parse_timestamp, hf1, hf2]
  rw [hts]
  rfl

theorem processLine_blank (st : PState) (l : String) (hline : rstripBom l = "") :
    processLine st l = Except.ok (if st.curContentLines = [] then st
      else { st with curContentLines := st.curContentLines ++ [""] }) := by
  simp only [processLine]
  rw [if_pos hline]

theorem processLine_nonheader (st : PState) (l : String)
    (hline : rstripBom l ≠ "") (hm : headerMatch (rstripBom l) = none) :
    processLine st l = (match st.curTimestamp with
      | none => Except.ok st
      | some _ =>
        Except.ok { st with curContentLines := st.curContentLines ++ [rstripBom l] }) := by
  simp only [processLine]
  rw [if_neg hline]
  simp only [hm]

theorem processLine_header (st : PState) (l : String) (hh : Header)
    (hline : rstripBom l ≠ "") (hm : headerMatch (rstripBom l) = some hh) :
    processLine st l = (match parse_timestamp hh with
      | Except.error e => Except.error e
      | Except.ok ts =>
        match senderMatch (pyStrip hh.rest) with
        | some (senderRaw, msgRaw) =>
          Except.ok ⟨(flush_current st).messages,
            addParticipant (flush_current st).participants (pyStrip senderRaw),
            some ts, some (pyStrip senderRaw), false, [pyStrip msgRaw]⟩
        | none =>
          Except.ok ⟨(flush_current st).messages, (flush_current st).participants,
            some ts, none, true, [pyStrip hh.rest]⟩) := by
  simp only [processLine]
  rw [if_neg hline]
  simp only [hm]

theorem processLine_ok_of_not_bad (st : PState) (l : String)
    (hb : badHeaderLine l = false) : ∃ st2, processLine st l = Except.ok st2 := by
  by_cases hline : rstripBom l = ""
  · exact ⟨_, processLine_blank st l hline⟩
  · cases hm : headerMatch (rstripBom l) with
    | none =>
      cases hct : st.curTimestamp with
      | none => exact ⟨st, by rw [processLine_nonheader st l hline hm, hct]⟩
      | some ts =>
        exact ⟨{ st with curContentLines := st.curContentLines ++ [rstripBom l] },
          by rw [processLine_nonheader st l hline hm, hct]⟩
    | some hh =>
      have hok : exceptIsOk (parse_timestamp hh) = true := by
        rw [badHeaderLine] at hb
        simp only [hm] at hb
        simpa using hb
      cases hts : parse_timestamp hh with
      | error e =>
        rw [hts] at hok
        exact absurd hok (by simp [exceptIsOk])
      | ok ts =>
        rw [processLine_header st l hh hline hm, hts]
        cases hsm : senderMatch (pyStrip hh.rest) with
        | some p =>
          obtain ⟨sr, mr⟩ := p
          exact ⟨_, rfl⟩
        | none => exact ⟨_, rfl⟩

theorem processLine_error_of_bad (l : String) (hb : badHeaderLine l = true) :
    ∃ hh, headerMatch (rstripBom l) = some hh ∧ strptimeFormat false hh = none ∧
      strptimeFormat true hh = none ∧
      ∀ st, processLine st l = Except.error (tsErrorMsg hh) := by
  by_cases hmm : (headerMatch (rstripBom l)).isSome = true
  · obtain ⟨hh, hm⟩ := Option.isSome_iff_exists.mp hmm
    rw [badHeaderLine] at hb
    simp only [hm] at hb
    cases hts : parse_timestamp hh with
    | ok ts =>
      rw [hts] at hb
      exact absurd hb (by simp [exceptIsOk])
    | error e =>
      have h3 := (parse_timestamp_error hh e).mp hts
      refine ⟨hh, hm, h3.1, h3.2.1, ?_⟩
      intro st
      have hline : rstripBom l ≠ "" := by
        intro hl
        rw [hl, headerMatch_empty] at hm
        exact Option.noConfusion hm
      rw [processLine_header st l hh hline hm, hts, h3.2.2]
  · have hm : headerMatch (rstripBom l) = none := Option.not_isSome_iff_eq_none.mp hmm
    rw [badHeaderLine] at hb
    simp only [hm] at hb
    exact absurd hb (by simp)

theorem processLine_error_inv (st : PState) (l : String) (e : String)
    (he : processLine st l = Except.error e) :
    ∃ hh, headerMatch (rstripBom l) = some hh ∧
      parse_timestamp hh = Except.error e := by
  by_cases hline : rstripBom l = ""
  · rw [processLine_blank st l hline] at he
    exact Except.noConfusion he
  · cases hm : headerMatch (rstripBom l) with
    | none =>
      rw [processLine_nonheader st l hline hm] at he
      cases hct : st.curTimestamp with
      | none =>
        rw [hct] at he
        exact Except.noConfusion he
      | some ts =>
        rw [hct] at he
        exact Except.noConfusion he
    | some hh =>
      rw [processLine_header st l hh hline hm] at he
      cases hts : parse_timestamp hh with
      | error e2 =>
        rw [hts] at he
        have he2 : e2 = e := Except.error.inj he
        exact ⟨hh, rfl, by rw [hts, he2]⟩
      | ok ts =>
        rw [hts] at he
        cases hsm : senderMatch (pyStrip hh.rest) with
        | some p =>
          obtain ⟨sr, mr⟩ := p
          rw [hsm] at he
          exact Except.noConfusion he
        | none =>
          rw [hsm] at he
          exact Except.noConfusion he

theorem runLines_ok : ∀ (ls : List String) (st : PState),
    (∀ l ∈ ls, badHeaderLine l = false) → ∃ st2, runLines st ls = Except.ok st2 := by
  intro ls
  induction ls with
  | nil => intro st _; exact ⟨st, rfl⟩
  | cons l rest ih =>
    intro st hall
    obtain ⟨stm, hstm⟩ := processLine_ok_of_not_bad st l (hall l (List.mem_cons_self _ _))
    obtain ⟨st2, hst2⟩ := ih stm (fun x hx => hall x (List.mem_cons_of_mem _ hx))
    refine ⟨st2, ?_⟩
    rw [runLines, hstm]
    exact hst2

theorem runLines_error_of_bad : ∀ (ls : List String) (st : PState),
    (∃ l ∈ ls, badHeaderLine l = true) → ∃ e, runLines st ls = Except.error e := by
  intro ls
  induction ls with
  | nil =>
    intro st ⟨l, hl, _⟩
    exact absurd hl (List.not_mem_nil l)
  | cons l rest ih =>
    intro st ⟨x, hx, hbx⟩
    by_cases hbl : badHeaderLine l = true
    · obtain ⟨hh, _, _, _, herr⟩ := processLine_error_of_bad l hbl
      refine ⟨tsErrorMsg hh, ?_⟩
      rw [runLines, herr st]
    · obtain ⟨stm, hstm⟩ := processLine_ok_of_not_bad st l (by simpa using hbl)
      have hxrest : x ∈ rest := by
        rcases List.mem_cons.mp hx with hx1 | hx1
        · exact absurd (hx1 ▸ hbx) hbl
        · exact hx1
      obtain ⟨e, he⟩ := ih stm ⟨x, hxrest, hbx⟩
      refine ⟨e, ?_⟩
      rw [runLines, hstm]
      exact he

theorem runLines_error : ∀ (ls : List String) (st : PState) (e : String),
    runLines st ls = Except.error e →
    ∃ l ∈ ls, ∃ hh, headerMatch (rstripBom l) = some hh ∧
      strptimeFormat false hh = none ∧ strptimeFormat true hh = none ∧
      e = tsErrorMsg hh := by
  intro ls
  induction ls with
  | nil =>
    intro st e he
    exact Except.noConfusion he
  | cons l rest ih =>
    intro st e he
    rw [runLines] at he
    cases hp : processLine st l with
    | error e2 =>
      rw [hp] at he
      have he2 : e2 = e := Except.error.inj he
      obtain ⟨hh, hm, hts⟩ := processLine_error_inv st l e2 hp
      have h3 := (parse_timestamp_error hh e2).mp hts
      exact ⟨l, List.mem_cons_self _ _, hh, hm, h3.1, h3.2.1, by rw [← he2, h3.2.2]⟩
    | ok stm =>
      rw [hp] at he
      obtain ⟨x, hx, hrest⟩ := ih stm e he
      exact ⟨x, List.mem_cons_of_mem _ hx, hrest⟩

/-- C3: parsing raises a failure iff some (BOM-processed) input line
matches the header grammar while its date/time parses under neither
supported format; the raised failure carries the offending date/time text;
on every other input the parser returns a `Conversation` without failing. -/
theorem parse_failure_characterization (raw : String) :
    ((∃ l ∈ pySplitlines raw, badHeaderLine l = true) ↔
      ∃ e, parse_exported_text raw = Except.error e) ∧
    (∀ e, parse_exported_text raw = Except.error e →
      ∃ l ∈ pySplitlines raw, ∃ hh, headerMatch (rstripBom l) = some hh ∧
        strptimeFormat false hh = none ∧ strptimeFormat true hh = none ∧
        e = tsErrorMsg hh) := by
  have hwrap : ∀ e, parse_exported_text raw = Except.error e ↔
      runLines initState (pySplitlines raw) = Except.error e := by
    intro e
    rw [parse_exported_text]
    cases hr : runLines initState (pySplitlines raw) with
    | error e2 => simp
    | ok st => simp
  constructor
  · constructor
    · intro hbad
      obtain ⟨e, he⟩ := runLines_error_of_bad (pySplitlines raw) initState hbad
      exact ⟨e, (hwrap e).mpr he⟩
    · intro ⟨e, he⟩
      obtain ⟨l, hl, hh, hm, hf1, hf2, _⟩ :=
        runLines_error (pySplitlines raw) initState e ((hwrap e).mp he)
      exact ⟨l, hl, badHeaderLine_of l hh hm hf1 hf2⟩
  · intro e he
    exact runLines_error (pySplitlines raw) initState e ((hwrap e).mp he)

/-- C3 witness: the 3-digit year `1/1/999` matches the header grammar but
parses under neither date format, and the raised failure carries the
offending date/time text. -/
theorem parse_failure_characterization_witness :
    ∃ l ∈ pySplitlines rawBadYear, ∃ hh, headerMatch (rstripBom l) = some hh ∧
      strptimeFormat false hh = none ∧ strptimeFormat true hh = none ∧
      "Nao foi possivel interpretar a data: 1/1/999 10:00" = tsErrorMsg hh :=
  (parse_failure_characterization rawBadYear).2
    "Nao foi possivel interpretar a data: 1/1/999 10:00"
    (by with_unfolding_all decide)

theorem flush_current_len (st : PState) :
    (flush_current st).messages.length = st.messages.length + pendingFlag st ∧
    (flush_current st).curTimestamp = none := by
  cases hct : st.curTimestamp <;> simp [flush_current, hct, pendingFlag]

theorem processLine_count (st : PState) (l : String) (st2 : PState)
    (hok : processLine st l = Except.ok st2) :
    st2.messages.length + pendingFlag st2
      = st.messages.length + pendingFlag st + (if isHeaderLine l then 1 else 0) := by
  by_cases hline : rstripBom l = ""
  · have hm : headerMatch (rstripBom l) = none := by rw [hline]; exact headerMatch_empty
    have hhl : isHeaderLine l = false := by rw [isHeaderLine, hm]; rfl
    rw [processLine_blank st l hline] at hok
    have hst := Except.ok.inj hok
    rw [← hst, hhl]
    by_cases hcl : st.curContentLines = [] <;> simp [hcl, pendingFlag]
  · cases hm : headerMatch (rstripBom l) with
    | none =>
      have hhl : isHeaderLine l = false := by rw [isHeaderLine, hm]; rfl
      rw [processLine_nonheader st l hline hm] at hok
      rw [hhl]
      cases hct : st.curTimestamp with
      | none =>
        rw [hct] at hok
        have hst := Except.ok.inj hok
        rw [← hst]
        simp
      | some ts =>
        rw [hct] at hok
        have hst := Except.ok.inj hok
        rw [← hst]
        simp [pendingFlag, hct]
    | some hh =>
      have hhl : isHeaderLine l = true := by rw [isHeaderLine, hm]; rfl
      rw [processLine_header st l hh hline hm] at hok
      rw [hhl]
      cases hts : parse_timestamp hh with
      | error e =>
        rw [hts] at hok
        exact Except.noConfusion hok
      | ok ts =>
        rw [hts] at hok
        cases hsm : senderMatch (pyStrip hh.rest) with
        | some p =>
          obtain ⟨sr, mr⟩ := p
          rw [hsm] at hok
          have hst := Except.ok.inj hok
          rw [← hst]
          simp only [pendingFlag, Option.isSome_some, if_true, (flush_current_len st).1]
        | none =>
          rw [hsm] at hok
          have hst := Except.ok.inj hok
          rw [← hst]
          simp only [pendingFlag, Option.isSome_some, if_true, (flush_current_len st).1]

theorem runLines_count : ∀ (ls : List String) (st st2 : PState),
    runLines st ls = Except.ok st2 →
    st2.messages.length + pendingFlag st2
      = st.messages.length + pendingFlag st + (ls.filter isHeaderLine).length := by
  intro ls
  induction ls with
  | nil =>
    intro st st2 hok
    have hst := Except.ok.inj hok
    rw [hst]
    simp
  | cons l rest ih =>
    intro st st2 hok
    rw [runLines] at hok
    cases hp : processLine st l with
    | error e =>
      rw [hp] at hok
      exact Except.noConfusion hok
    | ok stm =>
      rw [hp] at hok
      have h1 := ih stm st2 hok
      have h2 := processLine_count st l stm hp
      by_cases hhl : isHeaderLine l = true
      · simp [List.filter_cons, hhl] at h2 ⊢
        omega
      · have hhl2 : isHeaderLine l = false := by simpa using hhl
        simp [List.filter_cons, hhl2] at h2 ⊢
        omega

/-- C5: on an input whose header-grammar lines all carry parseable dates,
the parser succeeds and produces exactly one message per header line
(flush-on-next-header plus the final flush). -/
theorem message_count_eq_header_count (raw : String)
    (h : ∀ l ∈ pySplitlines raw, badHeaderLine l = false) :
    ∃ c, parse_exported_text raw = Except.ok c ∧
      c.messages.length = ((pySplitlines raw).filter isHeaderLine).length := by
  obtain ⟨st2, hst2⟩ := runLines_ok (pySplitlines raw) initState h
  have hcount := runLines_count (pySplitlines raw) initState st2 hst2
  refine ⟨⟨((flush_current st2).participants).insertionSort (· ≤ ·),
    (flush_current st2).messages⟩, ?_, ?_⟩
  · rw [parse_exported_text, hst2]
  · rw [(flush_current_len st2).1, hcount]
    simp [initState, pendingFlag]

/-- C5 witness: `rawDemo` has three header lines (one system, two
participant messages, with continuation lines and noise) and yields three
messages. -/
theorem message_count_eq_header_count_witness :
    ∃ c, parse_exported_text rawDemo = Except.ok c ∧
      c.messages.length = ((pySplitlines rawDemo).filter isHeaderLine).length :=
  message_count_eq_header_count rawDemo (by with_unfolding_all decide)

end WA
